import Mathlib

/-!
Verification development for the DevSkim analysis engine
(`src/server/src/devskimWorker.ts` and
`src/server/src/utility_classes/sourceContext.ts`).

The TypeScript code is shallowly embedded:
* JS document strings are `List Char` (`JSStr`), keeping JS index arithmetic
  exact; short token strings (rule ids, language ids, pattern sources) stay
  Lean `String`s.
* JS numbers used as indices are `Int`, so that negative sentinels (`-1`) and
  negative subtraction results behave exactly as in JS.
* JS exceptions are `Except String`; a `while` loop that may not terminate is
  given explicit fuel, with `none` meaning "the loop did not finish".
  `JsRes α = Option (Except String α)` combines both effects.
* The two regex engines (XRegExp and the vanilla JS engine) are a parameter:
  a `RegexEngine` record of compile / exec / escape / replace operations.
  Concrete instances used by witnesses implement literal-substring matching.
* Code the engine calls that is not part of the two repository files
  (the suppression detector of suppressions.ts, `createActions`,
  `PathOperations.ignoreFile`, `computeKey` of devskimObjects.ts) is passed
  in as a parameter; where a claim needs concrete behaviour of such a
  collaborator, an instance is modelled from the spec and marked as such.
-/

/-- A JS string viewed as its sequence of UTF-16 units; all analysed
documents here are ASCII, so `List Char` with positional arithmetic is an
exact model. -/
abbrev JSStr := List Char

/-- Inject a Lean string literal into the JS string model. -/
def jstr (s : String) : JSStr := s.data

/-- Smallest index at which `needle` occurs in `hay` (`none` if it does not
occur).  The empty needle occurs at every index, matching JS `indexOf`. -/
def firstIdx (needle : JSStr) : JSStr → Option Nat
  | [] => if needle.isPrefixOf ([] : JSStr) then some 0 else none
  | c :: t =>
    if needle.isPrefixOf (c :: t) then some 0
    else (firstIdx needle t).map (· + 1)

/-- Largest index at which `needle` occurs in `hay` (`none` if it does not
occur). `"ab".lastIndexOf("")` is `2` in JS; this model agrees. -/
def lastIdx (needle : JSStr) : JSStr → Option Nat
  | [] => if needle.isPrefixOf ([] : JSStr) then some 0 else none
  | c :: t =>
    match lastIdx needle t with
    | some i => some (i + 1)
    | none => if needle.isPrefixOf (c :: t) then some 0 else none

/-- JS `hay.indexOf(needle)`: first occurrence or `-1`. -/
def jsIndexOf (hay needle : JSStr) : Int :=
  match firstIdx needle hay with
  | some n => (n : Int)
  | none => -1

/-- JS `hay.lastIndexOf(needle)`: last occurrence or `-1`. -/
def jsLastIndexOf (hay needle : JSStr) : Int :=
  match lastIdx needle hay with
  | some n => (n : Int)
  | none => -1

/-- JS `s.substr(start)`: a negative start counts back from the end. -/
def jsSubstrFrom (s : JSStr) (start : Int) : JSStr :=
  if start < 0 then s.drop (max (s.length + start) 0).toNat
  else s.drop start.toNat

/-- JS `s.substr(0, len)`: a non-positive length gives the empty string. -/
def jsSubstrTo (s : JSStr) (len : Int) : JSStr :=
  s.take len.toNat

/-- JS `s.substr(start, len)`. -/
def jsSubstr2 (s : JSStr) (start len : Int) : JSStr :=
  (jsSubstrFrom s start).take len.toNat

/-- Does `sub` occur in `hay` (JS `hay.indexOf(sub) != -1`)? -/
def strContains (hay sub : String) : Bool :=
  (firstIdx sub.data hay.data).isSome

/-- JS `s.toLowerCase()` on ASCII text (charwise, so it evaluates in the
kernel, unlike `String.toLower`). -/
def jsToLower (s : String) : String := String.mk (s.data.map Char.toLower)

/-- Number of matches of the global regex `(\r\n|\n|\r)` (the source's
`newlinePattern`): a CRLF pair counts as one newline, matching the greedy
left-to-right alternation. -/
def countNewlines : JSStr → Nat
  | [] => 0
  | '\r' :: '\n' :: rest => countNewlines rest + 1
  | '\r' :: rest => countNewlines rest + 1
  | '\n' :: rest => countNewlines rest + 1
  | _ :: rest => countNewlines rest

/- ### Data model (devskimObjects.ts is not under src/; the record shapes
below are modelled from the spec §3 and from how devskimWorker.ts reads and
writes their fields). -/

inductive DevskimRuleSeverity where
  | Critical
  | Important
  | Moderate
  | BestPractice
  | ManualReview
  | WarningInfo
deriving DecidableEq, BEq, Repr

structure PositionT where
  line : Int
  character : Int
deriving DecidableEq, Repr

/-- A document range; the source's `end` field is called `stop` here because
`end` is a Lean keyword. -/
structure RangeT where
  start : PositionT
  stop : PositionT
deriving DecidableEq, Repr

/-- `Range.create(startLine, startChar, endLine, endChar)`. -/
def mkRange (a b c d : Int) : RangeT := ⟨⟨a, b⟩, ⟨c, d⟩⟩

structure PatternT where
  type : String
  pattern : String
  modifiers : Option (List String)
  scopes : List String
deriving DecidableEq, Repr

/-- A JS value that can sit in `condition.search_in` (spec §3: unset, `true`
or a string). -/
inductive JsVal where
  | bool (b : Bool)
  | str (s : String)
deriving DecidableEq, Repr

/-- JS truthiness of a `search_in` value: `false` and the empty string are
the falsy cases. -/
def jsTruthy : JsVal → Bool
  | .bool b => b
  | .str s => s ≠ ""

/-- JS `String(v)` coercion used when a non-string reaches a regex call. -/
def jsValToString : JsVal → String
  | .bool true => "true"
  | .bool false => "false"
  | .str s => s

structure Condition where
  pattern : PatternT
  search_in : Option JsVal
  negateFinding : Option Bool
deriving DecidableEq, Repr

structure FixIt where
  name : String
  pattern : PatternT
  replacement : String
deriving DecidableEq, Repr

structure Rule where
  id : String
  name : String
  description : String
  recommendation : String
  ruleInfo : String
  severity : String
  appliesTo : Option (List String)
  overrides : Option (List String)
  patterns : List PatternT
  conditions : Option (List Condition)
  fixIts : Option (List FixIt)
deriving DecidableEq, Repr

structure DevSkimAutoFixEdit where
  fixName : Option String
  text : JSStr
  range : RangeT
deriving DecidableEq, Repr

structure DevSkimProblem where
  message : String
  name : String
  ruleId : String
  severity : DevskimRuleSeverity
  recommendation : String
  ruleInfo : String
  range : RangeT
  fixes : List DevSkimAutoFixEdit
  overrides : List String
  suppressedFindingRange : Option RangeT
deriving DecidableEq, Repr

structure IDevSkimSettings where
  ignoreFilesList : List String
  ignoreRulesList : List String
  enableBestPracticeRules : Bool
  enableManualReviewRules : Bool
deriving DecidableEq, Repr

/-- Result record of `DevSkimSuppression.isFindingCommented`
(suppressions.ts, outside src/): `showFinding` is set when a suppression or
review directive applies, `ruleColumn` locates the rule id inside the
directive comment relative to the finding's column, `-1` if absent. -/
structure DevSkimSuppressionFinding where
  showFinding : Bool
  ruleColumn : Int
deriving DecidableEq, Repr

structure RMatch where
  index : Int
  len : Int
deriving DecidableEq, Repr

/-- A regex engine: `compile src flags` may throw (`Except.error` models the
JS exception), `exec r doc pos` is `XRegExp.exec(doc, r, pos)` (first match
at index ≥ pos), `escape` is `XRegExp.escape`, and `rreplace r src repl` is
`src.replace(r, repl)` for a non-global regex, which may also throw. -/
structure RegexEngine (ρ : Type) where
  compile : String → String → Except String ρ
  exec : ρ → JSStr → Int → Option RMatch
  escape : String → String
  rreplace : ρ → JSStr → String → Except String JSStr

/-- Result of a JS computation that can throw (`some (Except.error _)`) or
fail to terminate (`none`, produced when a loop's fuel runs out). -/
abbrev JsRes (α : Type) := Option (Except String α)

def jsPure {α : Type} (a : α) : JsRes α := some (Except.ok a)

def jsBind {α β : Type} (x : JsRes α) (f : α → JsRes β) : JsRes β :=
  match x with
  | none => none
  | some (Except.error e) => some (Except.error e)
  | some (Except.ok a) => f a

instance : Monad JsRes where
  pure := jsPure
  bind := jsBind

/-- Lift a possibly-throwing (but terminating) JS expression. -/
def liftE {α : Type} (x : Except String α) : JsRes α := some x

/- ### sourceContext.ts: the comment oracle -/

/-- `SourceContext.GetLineComment` (sourceContext.ts:176). -/
def GetLineComment : String → String
  | "vb" => "'"
  | "lua" | "sql" | "tsql" => "--"
  | "clojure" => ";;"
  | "yaml" | "shellscript" | "ruby" | "powershell" | "coffeescript"
  | "python" | "r" | "perl6" | "perl" => "#"
  | "jade" => "//-"
  | "c" | "cpp" | "csharp" | "fsharp" | "groovy" | "php" | "javascript"
  | "javascriptreact" | "typescript" | "typescriptreact" | "java"
  | "objective-c" | "swift" | "go" | "rust" => "//"
  | _ => ""

/-- `SourceContext.GetBlockCommentStart` (sourceContext.ts:229). -/
def GetBlockCommentStart : String → String
  | "c" | "cpp" | "csharp" | "groovy" | "php" | "javascript"
  | "javascriptreact" | "typescript" | "typescriptreact" | "java"
  | "objective-c" | "swift" | "go" | "rust" => "/*"
  | "fsharp" => "(*"
  | "html" | "xml" => "<!--"
  | _ => ""

/-- `SourceContext.GetBlockCommentEnd` (sourceContext.ts:266). -/
def GetBlockCommentEnd : String → String
  | "c" | "cpp" | "csharp" | "groovy" | "php" | "javascript"
  | "javascriptreact" | "typescript" | "typescriptreact" | "java"
  | "objective-c" | "swift" | "go" | "rust" => "*/"
  | "fsharp" => "*)"
  | "html" | "xml" => "-->"
  | _ => ""

/-- `SourceContext.IsFindingInComment` (sourceContext.ts:44):
`documentContents` is the document up to (not including) the finding,
`newlineIndex` the index of the most recent newline or `-1`. -/
def IsFindingInComment (langID : String) (documentContents : JSStr)
    (newlineIndex : Int) (onlyBlock : Bool := false) : Bool :=
  if documentContents.length < 1 then false
  else
    let startComment := GetLineComment langID
    let commentText :=
      if newlineIndex > -1 then jsSubstrFrom documentContents newlineIndex
      else documentContents
    if ¬onlyBlock ∧ startComment.length > 0 ∧
        jsIndexOf commentText (jstr startComment) > -1 then true
    else
      let blockStart := GetBlockCommentStart langID
      let blockEnd := GetBlockCommentEnd langID
      if blockStart.length > 0 ∧ blockEnd.length > 0 ∧
          jsLastIndexOf documentContents (jstr blockStart) >
            jsLastIndexOf documentContents (jstr blockEnd) then true
      else false

/- ### devskimWorker.ts -/

/-- `DevSkimWorker.MapRuleSeverity` (devskimWorker.ts:237). -/
def MapRuleSeverity (severity : String) : DevskimRuleSeverity :=
  match jsToLower severity with
  | "critical" => .Critical
  | "important" => .Important
  | "moderate" => .Moderate
  | "best-practice" => .BestPractice
  | "manual-review" => .ManualReview
  | _ => .BestPractice

/-- `DevSkimWorker.RuleSeverityEnabled` (devskimWorker.ts:215). -/
def RuleSeverityEnabled (settings : IDevSkimSettings)
    (ruleSeverity : DevskimRuleSeverity) : Bool :=
  ruleSeverity == .Critical || ruleSeverity == .Important ||
  ruleSeverity == .Moderate ||
  (ruleSeverity == .BestPractice && settings.enableBestPracticeRules) ||
  (ruleSeverity == .ManualReview && settings.enableManualReviewRules)

/-- `DevSkimWorker.MakeRegex` (devskimWorker.ts:262): build the modifier
string (the `d` flag becomes `s` for XRegExp and is dropped for the vanilla
engine), then compile the pattern according to its kind. -/
def MakeRegex {ρ : Type} (e : RegexEngine ρ) (regexType pattern : String)
    (modifiers : Option (List String)) (forXregExp : Bool) :
    Except String ρ :=
  let regexModifer : String :=
    match modifiers with
    | none => ""
    | some mods =>
      mods.foldl
        (fun acc m =>
          if m = "d" then (if forXregExp then acc ++ "s" else acc)
          else acc ++ m)
        ""
  match jsToLower regexType with
  | "regex-word" => e.compile ("\\b" ++ pattern ++ "\\b") regexModifer
  | "string" => e.compile ("\\b" ++ e.escape pattern ++ "\\b") regexModifer
  | "substring" => e.compile (e.escape pattern) regexModifer
  | _ => e.compile pattern regexModifer

/-- The spec's §4.B flag mapping, written from the spec's words: every
modifier character is copied verbatim except `d`, which is emitted as `s`
when the target engine supports dot-matches-newline and dropped otherwise. -/
def specFlags (modifiers : Option (List String)) (forDotAll : Bool) : String :=
  String.join ((modifiers.getD []).map
    (fun m => if m = "d" then (if forDotAll then "s" else "") else m))

/-- The spec's §4.B kind mapping, written from the spec's words: the kind is
compared case-insensitively, unknown kinds behave like `regex`. -/
def specSource (escape : String → String) (kind pattern : String) : String :=
  if jsToLower kind = "regex-word" then "\\b" ++ pattern ++ "\\b"
  else if jsToLower kind = "string" then "\\b" ++ escape pattern ++ "\\b"
  else if jsToLower kind = "substring" then escape pattern
  else pattern

/-- `DevSkimWorker.AppliesToLangOrFile` (devskimWorker.ts:677); `languageID`
is a (non-null) string here, so the source's null guard is vacuous. -/
def AppliesToLangOrFile (languageID : String)
    (appliesTo : Option (List String)) (documentURI : String) : Bool :=
  match appliesTo with
  | some l =>
    if l.length > 0 then
      l.any (fun applies =>
        (jsToLower languageID == jsToLower applies) ||
        (strContains applies "." &&
          strContains (jsToLower documentURI) (jsToLower applies)))
    else true
  | none => true

/-- `DevSkimWorker.MatchIsInScope` (devskimWorker.ts:396). -/
def MatchIsInScope (langID : String) (docContentsToFinding : JSStr)
    (newlineIndex : Int) (scopes : List String) : Bool :=
  if scopes.contains "all" then true
  else
    let findingInComment :=
      IsFindingInComment langID docContentsToFinding newlineIndex
    scopes.any (fun scope =>
      (scope == "code" && !findingInComment) ||
      (scope == "comment" && findingInComment))

/-- `DevSkimWorker.GetLineNumber` (devskimWorker.ts:532): newlines in
`substr(0, currentPosition)`. -/
def GetLineNumber (documentContents : JSStr) (currentPosition : Int) : Int :=
  (countNewlines (jsSubstrTo documentContents currentPosition) : Int)

/-- The newline scan of `GetDocumentPosition`: `pos` is the offset consumed
so far, `line` the 1-based line counter, `target` the incremented line
number; reaching the end returns the document length (the accumulated
offset). -/
def gdpLoop : JSStr → Int → Int → Int → Int
  | [], pos, _, _ => pos
  | '\r' :: '\n' :: rest, pos, line, target =>
    if line + 1 = target then pos + 2
    else gdpLoop rest (pos + 2) (line + 1) target
  | '\r' :: rest, pos, line, target =>
    if line + 1 = target then pos + 1
    else gdpLoop rest (pos + 1) (line + 1) target
  | '\n' :: rest, pos, line, target =>
    if line + 1 = target then pos + 1
    else gdpLoop rest (pos + 1) (line + 1) target
  | _ :: rest, pos, line, target => gdpLoop rest (pos + 1) line target

/-- `DevSkimWorker.GetDocumentPosition` (devskimWorker.ts:545): offset of the
start of the given 0-based line. -/
def GetDocumentPosition (documentContents : JSStr) (lineNumber : Int) : Int :=
  if lineNumber < 1 then 0
  else gdpLoop documentContents 0 1 (lineNumber + 1)

/-- JS `ToNumber` on a string, restricted to the forms the embedding can
meet (optional sign, decimal digits); `none` is NaN.  The empty string
coerces to `0`. -/
def jsToNumber (s : String) : Option Int :=
  match s.data with
  | [] => some 0
  | '-' :: ds =>
    if ds ≠ [] ∧ ds.all Char.isDigit then
      some (-(Int.ofNat ((ds.map (fun c => c.toNat - 48)).foldl
        (fun acc d => 10 * acc + d) 0)))
    else none
  | ds =>
    if ds.all Char.isDigit then
      some (Int.ofNat ((ds.map (fun c => c.toNat - 48)).foldl
        (fun acc d => 10 * acc + d) 0))
    else none

/-- `GetDocumentPosition` receiving a string line number, as happens on the
`finding-region` path where JS `+` concatenates: `lineNumber < 1` and the
`lineNumber++` coerce the string with `ToNumber`; a NaN result makes every
comparison false, so the scan runs to the end and returns the document
length. -/
def GetDocumentPositionStr (documentContents : JSStr) (lineNumber : String) :
    Int :=
  match jsToNumber lineNumber with
  | some v => GetDocumentPosition documentContents v
  | none => (documentContents.length : Int)

/-- Parse a maximal `-*\d+` token (the capture groups of the source's
`regionRegex`), returning the token text and the rest. -/
def parseRegionTok (cs : JSStr) : Option (JSStr × JSStr) :=
  let minus := cs.takeWhile (· == '-')
  let rest := cs.dropWhile (· == '-')
  let digs := rest.takeWhile Char.isDigit
  if digs.isEmpty then none else some (minus ++ digs, rest.dropWhile Char.isDigit)

/-- Match `finding-region\((-*\d+),(-*\d+)\)` at the start of `cs`. -/
def tryRegionAt (cs : JSStr) : Option (String × String) :=
  if (jstr "finding-region(").isPrefixOf cs then
    match parseRegionTok (cs.drop 15) with
    | some (g1, r1) =>
      match r1 with
      | ',' :: r2 =>
        match parseRegionTok r2 with
        | some (g2, r3) =>
          match r3 with
          | ')' :: _ => some (String.mk g1, String.mk g2)
          | _ => none
        | none => none
      | _ => none
    | none => none
  else none

/-- `XRegExp.exec(search_in, /finding-region\((-*\d+),(-*\d+)\)/)`: the first
match anywhere in the string, with its two captures. -/
def findingRegionExec : JSStr → Option (String × String)
  | [] => none
  | c :: t =>
    match tryRegionAt (c :: t) with
    | some r => some r
    | none => findingRegionExec t

/-- The `(startPos, endPos)` scan region of one condition
(devskimWorker.ts:463-481).  `search_in` being any truthy value (including
the strings `"finding-only"` and `"finding-region(a,b)"`) takes the first
branch; only falsy non-undefined values fall through, and on the region
branch JS `+` concatenates the numeric captures onto the line numbers. -/
def conditionRegion (documentContents : JSStr) (findingRange : RangeT)
    (c : Condition) : Int × Int :=
  let startPos := findingRange.start.line
  let endPos := findingRange.stop.line
  match c.search_in with
  | none =>
    (GetDocumentPosition documentContents findingRange.start.line,
     GetDocumentPosition documentContents (findingRange.stop.line + 1))
  | some v =>
    if jsTruthy v then
      (GetDocumentPosition documentContents findingRange.start.line,
       GetDocumentPosition documentContents (findingRange.stop.line + 1))
    else if v = .str "finding-only" then
      -- dead in JS: a non-empty string is truthy and is taken above
      (GetDocumentPosition documentContents findingRange.start.line +
         findingRange.start.character,
       GetDocumentPosition documentContents findingRange.stop.line +
         findingRange.stop.character)
    else
      match findingRegionExec (jstr (jsValToString v)) with
      | some (g1, g2) =>
        -- dead in JS likewise; `line + capture` concatenates, and the
        -- trailing `+ 1` concatenates a further "1"
        (GetDocumentPositionStr documentContents
           (toString findingRange.start.line ++ g1),
         GetDocumentPositionStr documentContents
           ((toString findingRange.stop.line ++ g2) ++ "1"))
      | none => (startPos, endPos)

/-- The inner `while (match)` scan of one condition
(devskimWorker.ts:484-511).  The returned Bool is whether the condition
passes; since `MatchesConditions` returns false as soon as one condition
fails, "condition fails" and "return false" coincide.  `found` is the
source's `foundPattern` flag. -/
def condScan {ρ : Type} (e : RegexEngine ρ) (c : Condition)
    (documentContents : JSStr) (langID : String) (cr : ρ) (endPos : Int)
    (negate : Bool) : Nat → Int → Bool → JsRes Bool
  | 0, _, _ => none
  | fuel + 1, startPos, found =>
    match e.exec cr documentContents startPos with
    | none => jsPure (negate || found)
    | some m =>
      if m.index > endPos then
        (if negate then jsPure true else jsPure false)
      else
        let lineStart := GetLineNumber documentContents m.index
        let newlineIndex :=
          if lineStart = 0 then -1
          else jsLastIndexOf (jsSubstrTo documentContents m.index) (jstr "\n")
        if MatchIsInScope langID (jsSubstrTo documentContents m.index)
            newlineIndex c.pattern.scopes then
          (if negate then jsPure false else jsPure true)
        else
          condScan e c documentContents langID cr endPos negate fuel
            (m.index + m.len) found

/-- The per-condition loop of `MatchesConditions` (devskimWorker.ts:453). -/
def condLoop {ρ : Type} (e : RegexEngine ρ) (documentContents : JSStr)
    (findingRange : RangeT) (langID : String) (fuel : Nat) :
    List Condition → JsRes Bool
  | [] => jsPure true
  | c :: rest => do
    let negate := c.negateFinding.getD false
    let modifiers : List String :=
      match c.pattern.modifiers with
      | some l => if l.length > 0 then l ++ ["g"] else ["g"]
      | none => ["g"]
    let cr ← liftE (MakeRegex e c.pattern.type c.pattern.pattern
      (some modifiers) true)
    let region := conditionRegion documentContents findingRange c
    let ok ← condScan e c documentContents langID cr region.2 negate fuel
      region.1 false
    if ok then condLoop e documentContents findingRange langID fuel rest
    else jsPure false

/-- `DevSkimWorker.MatchesConditions` (devskimWorker.ts:448). -/
def MatchesConditions {ρ : Type} (e : RegexEngine ρ)
    (conditions : List Condition) (documentContents : JSStr)
    (findingRange : RangeT) (langID : String) (fuel : Nat) : JsRes Bool :=
  if conditions.length ≠ 0 then
    condLoop e documentContents findingRange langID fuel conditions
  else jsPure true

/-- `DevSkimWorker.MakeProblem` (devskimWorker.ts:426).  The `DevSkimProblem`
constructor lives in devskimObjects.ts (not under src/); modelled from the
spec §3: a fresh problem starts with no fixes, no overrides and no
suppressed range. -/
def MakeProblem (rule : Rule) (warningLevel : DevskimRuleSeverity)
    (problemRange : RangeT) (suppressedFindingRange : Option RangeT := none) :
    DevSkimProblem :=
  let problem : DevSkimProblem :=
    { message := rule.description
      name := rule.name
      ruleId := rule.id
      severity := warningLevel
      recommendation := rule.recommendation
      ruleInfo := rule.ruleInfo
      range := problemRange
      fixes := []
      overrides := []
      suppressedFindingRange := none }
  let problem :=
    match suppressedFindingRange with
    | some r => { problem with suppressedFindingRange := some r }
    | none => problem
  match rule.overrides with
  | some l => if l.length > 0 then { problem with overrides := l } else problem
  | none => problem

/-- The descending `fixIndex` loop of `MakeFixes` (devskimWorker.ts:589),
taking the fix templates already reversed.  Building the regex sits outside
the source's `try`, so its failure escapes; a failing `replace` only skips
the fix. -/
def goFixes {ρ : Type} (e : RegexEngine ρ) (replacementSource : JSStr)
    (range : RangeT) : List FixIt → List DevSkimAutoFixEdit →
    Except String (List DevSkimAutoFixEdit)
  | [], acc => .ok acc
  | f :: rest, acc =>
    match MakeRegex e f.pattern.type f.pattern.pattern f.pattern.modifiers
      false with
    | .error msg => .error msg
    | .ok replacePattern =>
      match e.rreplace replacePattern replacementSource f.replacement with
      | .ok txt =>
        goFixes e replacementSource range rest
          (acc ++ [{ fixName := some ("DevSkim: " ++ f.name), text := txt,
                     range := range }])
      | .error _ => goFixes e replacementSource range rest acc

/-- `DevSkimWorker.MakeFixes` (devskimWorker.ts:581). -/
def MakeFixes {ρ : Type} (e : RegexEngine ρ) (rule : Rule)
    (replacementSource : JSStr) (range : RangeT) :
    Except String (List DevSkimAutoFixEdit) :=
  match rule.fixIts with
  | some fixIts =>
    if fixIts.length > 0 then goFixes e replacementSource range fixIts.reverse []
    else .ok []
  | none => .ok []

/-- The geometry the match loop computes for one match
(devskimWorker.ts:334-349): start line/column from the prefix before the
match, end line from the newlines inside the matched text, and end column
from the match length and the first `"\n"` at or after the match offset. -/
structure MatchGeometry where
  lineStart : Int
  newlineIndex : Int
  columnStart : Int
  replacementSource : JSStr
  range : RangeT
deriving DecidableEq, Repr

def matchGeometry (documentContents : JSStr) (mIndex mLen : Int) :
    MatchGeometry :=
  let lineStart := GetLineNumber documentContents mIndex
  let newlineIndex :=
    if lineStart = 0 then -1
    else jsLastIndexOf (jsSubstrTo documentContents mIndex) (jstr "\n")
  let columnStart := mIndex - newlineIndex - 1
  let replacementSource := jsSubstr2 documentContents mIndex mLen
  let lineEnd :=
    GetLineNumber replacementSource (replacementSource.length : Int) +
      lineStart
  let columnEnd :=
    if lineStart = lineEnd then columnStart + mLen
    else mLen - jsIndexOf (jsSubstrFrom documentContents mIndex) (jstr "\n") - 1
  { lineStart := lineStart
    newlineIndex := newlineIndex
    columnStart := columnStart
    replacementSource := replacementSource
    range := mkRange lineStart columnStart lineEnd columnEnd }

/-- `DevSkimSuppression.isFindingCommented` lives in suppressions.ts
(outside src/), so the engine receives it as a function. -/
abbrev SuppressionDetector :=
  Int → JSStr → String → DevskimRuleSeverity → DevSkimSuppressionFinding

/-- `this.dsSuppressions.createActions` (suppressions.ts, outside src/),
likewise a parameter: the suppression-authoring fixes appended to a live
problem. -/
abbrev CreateActions :=
  String → JSStr → Int → Int → String → DevskimRuleSeverity →
    List DevSkimAutoFixEdit

/-- The `else if (suppressionFinding.ruleColumn > 0)` branch
(devskimWorker.ts:365-372): a WarningInfo marker spanning the rule id inside
the directive comment, carrying the suppressed finding's range. -/
def suppressionMarker (rule : Rule) (g : MatchGeometry)
    (sf : DevSkimSuppressionFinding) : List DevSkimProblem :=
  if sf.ruleColumn > 0 then
    [MakeProblem rule .WarningInfo
      (mkRange g.lineStart (g.columnStart + sf.ruleColumn) g.lineStart
        (g.columnStart + sf.ruleColumn + (rule.id.length : Int)))
      (some g.range)]
  else []

/-- The body of the `while (match)` loop of `runAnalysis`
(devskimWorker.ts:322-373): the problems pushed for one match.  The JS `&&`
short-circuits, so `MatchesConditions` only runs when the finding is
unsuppressed and in scope. -/
def processMatch {ρ : Type} (e : RegexEngine ρ)
    (detector : SuppressionDetector) (createActions : CreateActions)
    (rule : Rule) (pat : PatternT) (documentContents : JSStr)
    (langID : String) (m : RMatch) (fuel : Nat) :
    JsRes (List DevSkimProblem) :=
  let conditions := rule.conditions.getD []
  let ruleSeverity := MapRuleSeverity rule.severity
  let suppressionFinding :=
    detector m.index documentContents rule.id ruleSeverity
  let g := matchGeometry documentContents m.index m.len
  if !suppressionFinding.showFinding &&
      MatchIsInScope langID (jsSubstrTo documentContents m.index)
        g.newlineIndex pat.scopes then do
    let mc ← MatchesConditions e conditions documentContents g.range langID
      fuel
    if mc then do
      let madeFixes ← liftE (MakeFixes e rule g.replacementSource g.range)
      let problem := MakeProblem rule (MapRuleSeverity rule.severity) g.range
      let problem :=
        { problem with
            fixes := (problem.fixes ++ madeFixes) ++
              createActions rule.id documentContents m.index g.lineStart
                langID ruleSeverity }
      jsPure [problem]
    else jsPure (suppressionMarker rule g suppressionFinding)
  else jsPure (suppressionMarker rule g suppressionFinding)

/-- The `while (match)` scan of one pattern over the document
(devskimWorker.ts:319-377): after each match the cursor moves to
`match.index + match[0].length` — no further for a zero-width match. -/
def scanLoop {ρ : Type} (e : RegexEngine ρ) (detector : SuppressionDetector)
    (createActions : CreateActions) (rule : Rule) (pat : PatternT) (cr : ρ)
    (documentContents : JSStr) (langID : String) (condFuel : Nat) :
    Nat → Int → List DevSkimProblem → JsRes (List DevSkimProblem)
  | 0, _, _ => none
  | fuel + 1, matchPosition, problems =>
    match e.exec cr documentContents matchPosition with
    | none => jsPure problems
    | some m => do
      let newOnes ← processMatch e detector createActions rule pat
        documentContents langID m condFuel
      scanLoop e detector createActions rule pat cr documentContents langID
        condFuel fuel (m.index + m.len) (problems ++ newOnes)

/-- The `for (let patternIndex ...)` loop of `runAnalysis`
(devskimWorker.ts:313-378). -/
def patternsLoop {ρ : Type} (e : RegexEngine ρ)
    (detector : SuppressionDetector) (createActions : CreateActions)
    (rule : Rule) (documentContents : JSStr) (langID : String) (fuel : Nat) :
    List PatternT → List DevSkimProblem → JsRes (List DevSkimProblem)
  | [], problems => jsPure problems
  | pat :: rest, problems => do
    let modifiers : List String :=
      match pat.modifiers with
      | some l => if l.length > 0 then l ++ ["g"] else ["g"]
      | none => ["g"]
    let cr ← liftE (MakeRegex e pat.type pat.pattern (some modifiers) true)
    let problems2 ← scanLoop e detector createActions rule pat cr
      documentContents langID fuel fuel 0 problems
    patternsLoop e detector createActions rule documentContents langID fuel
      rest problems2

/-- The `for (let rule of this.analysisRules)` loop of `runAnalysis`
(devskimWorker.ts:306-380). -/
def rulesLoop {ρ : Type} (e : RegexEngine ρ) (detector : SuppressionDetector)
    (createActions : CreateActions) (settings : IDevSkimSettings)
    (documentContents : JSStr) (langID documentURI : String) (fuel : Nat) :
    List Rule → List DevSkimProblem → JsRes (List DevSkimProblem)
  | [], problems => jsPure problems
  | rule :: rest, problems => do
    let ruleSeverity := MapRuleSeverity rule.severity
    let problems2 ←
      if !(settings.ignoreRulesList.contains rule.id) &&
          AppliesToLangOrFile langID rule.appliesTo documentURI &&
          RuleSeverityEnabled settings ruleSeverity then
        patternsLoop e detector createActions rule documentContents langID
          fuel rule.patterns problems
      else jsPure problems
    rulesLoop e detector createActions settings documentContents langID
      documentURI fuel rest problems2

/-- `DevSkimWorker.runAnalysis` (devskimWorker.ts:301). -/
def runAnalysis {ρ : Type} (e : RegexEngine ρ)
    (detector : SuppressionDetector) (createActions : CreateActions)
    (settings : IDevSkimSettings) (rules : List Rule) (fuel : Nat)
    (documentContents : JSStr) (langID documentURI : String) :
    JsRes (List DevSkimProblem) :=
  rulesLoop e detector createActions settings documentContents langID
    documentURI fuel rules []

/-- The anchor of an overriding problem (devskimWorker.ts:636):
`suppressedFindingRange` when present, else the problem's own range. -/
def anchorRange (p : DevSkimProblem) : RangeT :=
  match p.suppressedFindingRange with
  | some r => r
  | none => p.range

/-- `problems[x].ruleId.match("o1|o2|...")` (devskimWorker.ts:635): an
unanchored alternation of the override ids taken as literal regexes matches
exactly when some id occurs as a substring of the rule id. -/
def overrideMatches (overridesList : List String) (rid : String) : Bool :=
  overridesList.any (fun s => strContains rid s)

/-- The inner `for (let x ...)` splice loop of `processOverrides`
(devskimWorker.ts:634-644).  `x` advances every iteration, also right after
a `splice(x, 1)`, so the element shifted into position `x` is skipped.
`pIdx` tracks where the outer loop's `problem` object currently sits (JS
object identity); `none` once it has been spliced out itself.  The fuel
(`ps.length + 1 - x` steps suffice, since `x` grows each step and the list
never grows) only makes the recursion structural. -/
def poInner (overridesList : List String) (anchor : RangeT) (fuel : Nat)
    (ps : List DevSkimProblem) (x : Nat) (pIdx : Option Nat)
    (removed : Bool) : List DevSkimProblem × Option Nat × Bool :=
  match fuel with
  | 0 => (ps, pIdx, removed)
  | fuel' + 1 =>
    match ps.get? x with
    | none => (ps, pIdx, removed)
    | some q =>
      if overrideMatches overridesList q.ruleId &&
          q.range.start.line == anchor.start.line &&
          q.range.start.character == anchor.start.character then
        poInner overridesList anchor fuel' (ps.eraseIdx x) (x + 1)
          (match pIdx with
           | some j =>
             if x < j then some (j - 1) else if x = j then none else some j
           | none => none)
          true
      else poInner overridesList anchor fuel' ps (x + 1) pIdx removed

/-- The outer `for (let problem of problems)` loop of `processOverrides`
(devskimWorker.ts:620-650).  The JS array iterator reads the current array
at its running index `i`, which a splice does not adjust; after the inner
loop, `problem.overrides = []` clears the overrides on the object wherever
it now sits (a no-op if it was spliced out).  Fuel `ps.length + 1` suffices:
`i` grows each step and the list never grows. -/
def poOuter (fuel : Nat) (ps : List DevSkimProblem) (i : Nat)
    (removed : Bool) : List DevSkimProblem × Bool :=
  match fuel with
  | 0 => (ps, removed)
  | fuel' + 1 =>
    match ps.get? i with
    | none => (ps, removed)
    | some problem =>
      if problem.overrides.length > 0 then
        let r := poInner problem.overrides (anchorRange problem)
          (ps.length + 1) ps 0 (some i) removed
        let ps2 :=
          match r.2.1 with
          | some j =>
            match r.1.get? j with
            | some q => r.1.set j { q with overrides := [] }
            | none => r.1
          | none => r.1
        poOuter fuel' ps2 (i + 1) r.2.2
      else poOuter fuel' ps (i + 1) removed

/-- `DevSkimWorker.processOverrides` (devskimWorker.ts:617): one pass over
the problems, then recurse while a pass removed something.  Each recursive
call happens only after at least one removal, so `problems.length + 1`
levels suffice; the fuel only makes that recursion structural. -/
def processOverridesGo (fuel : Nat) (problems : List DevSkimProblem) :
    List DevSkimProblem :=
  match fuel with
  | 0 => problems
  | fuel' + 1 =>
    let r := poOuter (problems.length + 1) problems 0 false
    if r.2 then processOverridesGo fuel' r.1 else r.1

def processOverrides (problems : List DevSkimProblem) :
    List DevSkimProblem :=
  processOverridesGo (problems.length + 1) problems

/-- `DevSkimWorker.analyzeText` (devskimWorker.ts:69).
`PathOperations.ignoreFile` (pathOperations.ts, outside src/) is a
parameter; the JS truthiness tests on `this.analysisRules` and the settings
record reduce to the rule list being non-empty, since a present array or
record object is always truthy. -/
def analyzeText {ρ : Type} (e : RegexEngine ρ)
    (detector : SuppressionDetector) (createActions : CreateActions)
    (ignoreFile : String → List String → Bool)
    (settings : IDevSkimSettings) (rules : List Rule) (fuel : Nat)
    (documentContents : JSStr) (langID documentURI : String) :
    JsRes (List DevSkimProblem) :=
  if rules.length > 0 &&
      !(ignoreFile documentURI settings.ignoreFilesList) then do
    let problems ← runAnalysis e detector createActions settings rules fuel
      documentContents langID documentURI
    jsPure (processOverrides problems)
  else jsPure []

/- ### recordCodeAction (devskimWorker.ts:100) -/

/-- A diagnostic code is `string | number` in the source. -/
abbrev DiagCode := Sum String Int

structure AutoFix where
  label : String
  documentVersion : Int
  ruleId : String
  edit : DevSkimAutoFixEdit
deriving DecidableEq, Repr

/-- The `Map<T>` of devskimObjects.ts is a plain JS object used as a string
map; an association list with first-match lookup models it. -/
abbrev EditsMap := List (String × AutoFix)

abbrev CodeActionsMap := List (String × EditsMap)

def lookupA {α : Type} (m : List (String × α)) (k : String) : Option α :=
  (m.find? (fun p => p.1 == k)).map Prod.snd

/-- JS `obj[k] = v`: overwrite if present, else add. -/
def setA {α : Type} (m : List (String × α)) (k : String) (v : α) :
    List (String × α) :=
  match m with
  | [] => [(k, v)]
  | (k2, v2) :: rest =>
    if k2 == k then (k, v) :: rest else (k2, v2) :: setA rest k v

/-- The decimal digit character for `n < 10` (`9` for anything larger). -/
def decDigit (n : Nat) : Char :=
  if n = 0 then '0' else if n = 1 then '1' else if n = 2 then '2'
  else if n = 3 then '3' else if n = 4 then '4' else if n = 5 then '5'
  else if n = 6 then '6' else if n = 7 then '7' else if n = 8 then '8'
  else '9'

/-- Decimal digits of `n`, most significant first; the fuel (any value
above the digit count, `n + 1` always suffices) makes the division
recursion structural so that the definition evaluates in the kernel. -/
def decCharsF : Nat → Nat → List Char
  | 0, _ => []
  | fuel + 1, n =>
    if n < 10 then [decDigit n]
    else decCharsF fuel (n / 10) ++ [decDigit (n % 10)]

/-- JS `x.toString(10)` for a non-negative integer. -/
def decStr (n : Nat) : String := String.mk (decCharsF (n + 1) n)

/-- Numeric value of a decimal digit string (left inverse of `decCharsF`,
used to prove the ordinal keys distinct). -/
def decVal (l : List Char) : Nat :=
  l.foldl (fun acc c => 10 * acc + (c.toNat - 48)) 0

/-- The `while (edits[computeKey(...) + x])` search
(devskimWorker.ts:114-116) for the smallest unused ordinal.  Fuel
`edits.length + 1` always suffices (see `exists_free_ordinal` below). -/
def ordinalLoop (edits : EditsMap) (key : String) : Nat → Nat → Nat
  | 0, x => x
  | fuel + 1, x =>
    match lookupA edits (key ++ decStr x) with
    | some _ => ordinalLoop edits key fuel (x + 1)
    | none => x

/-- `DevSkimWorker.recordCodeAction` (devskimWorker.ts:100).  `computeKey`
(devskimObjects.ts, outside src/) is a parameter.  `fix` and `ruleID` model
the JS falsiness guard: a missing fix object, or a missing or empty rule id,
returns with the cache untouched. -/
def recordCodeAction (computeKey : RangeT → DiagCode → String)
    (codeActions : CodeActionsMap) (documentURI : String)
    (documentVersion : Int) (range : RangeT) (diagnosticCode : DiagCode)
    (fix : Option DevSkimAutoFixEdit) (ruleID : Option String) :
    CodeActionsMap :=
  match fix, ruleID with
  | some fixv, some rid =>
    if rid = "" then codeActions
    else
      let fixName : String :=
        match fixv.fixName with
        | some fn =>
          if fn.length > 0 then fn else "Fix this " ++ rid ++ " problem"
        | none => "Fix this " ++ rid ++ " problem"
      let edits := (lookupA codeActions documentURI).getD []
      let key := computeKey range diagnosticCode
      let x := ordinalLoop edits key (edits.length + 1) 0
      setA codeActions documentURI
        (setA edits (key ++ decStr x)
          { label := fixName, documentVersion := documentVersion,
            ruleId := rid, edit := fixv })
  | _, _ => codeActions

/- ### Concrete collaborators used by the closed theorems below -/

/-- First occurrence of the literal `needle` at index ≥ `pos` (the exec of
the literal-substring test engine). -/
def litExec (needle : String) (doc : JSStr) (pos : Int) : Option RMatch :=
  let base := pos.toNat
  if base > doc.length then none
  else
    match firstIdx needle.data (doc.drop base) with
    | some i => some { index := ((base + i : Nat) : Int),
                       len := (needle.data.length : Int) }
    | none => none

/-- Replace the first occurrence of the literal `needle` in `doc` (JS
`replace` on a non-global regex; no match leaves the string unchanged). -/
def litReplaceGo (needle : JSStr) (repl : JSStr) : JSStr → JSStr
  | [] => []
  | c :: t =>
    if needle.isPrefixOf (c :: t) then repl ++ (c :: t).drop needle.length
    else c :: litReplaceGo needle repl t

def litReplace (needle : String) (doc : JSStr) (repl : String) :
    Except String JSStr :=
  .ok (if needle.data.isPrefixOf ([] : JSStr) ∧ doc = [] then repl.data
       else litReplaceGo needle.data repl.data doc)

/-- A test regex engine treating every compiled source as a literal
substring; compilation never fails, escaping is the identity (the witness
patterns contain no metacharacters). -/
def litEngine : RegexEngine String :=
  { compile := fun src _ => .ok src
    exec := litExec
    escape := fun s => s
    rreplace := fun r doc repl => litReplace r doc repl }

/-- Like `litEngine`, but compiling the source `"("` throws — the behaviour
of a real engine handed an invalid regex. -/
def parenFailEngine : RegexEngine String :=
  { compile := fun src _ =>
      if src = "(" then .error "SyntaxError" else .ok src
    exec := litExec
    escape := fun s => s
    rreplace := fun r doc repl => litReplace r doc repl }

/-- Like `litEngine`, but every substitution throws. -/
def failReplEngine : RegexEngine String :=
  { compile := fun src _ => .ok src
    exec := litExec
    escape := fun s => s
    rreplace := fun _ _ _ => .error "bad substitution" }

/-- A suppression detector that never finds a directive. -/
def noSuppression : SuppressionDetector := fun _ _ _ _ =>
  { showFinding := false, ruleColumn := -1 }

/-- No suppression-authoring fixes. -/
def noActions : CreateActions := fun _ _ _ _ _ _ => []

/-- Lower-case an ASCII JS string. -/
def toLowerL (s : JSStr) : JSStr := s.map Char.toLower

/-- Modelled from the spec: the suppression detector of §4.C/§6
(suppressions.ts is not under src/).  It recognizes the id-list form
`DevSkim: ignore <id-list>` in the comment on the finding's line
(case-insensitive keyword); with an id list the given rule is suppressed
only if listed, a bare directive suppresses every rule.  `ruleColumn` is
the id's start column relative to the finding's column, as the marker-range
computation at devskimWorker.ts:368 requires.  The `reviewed` form and
`until` expiry dates of §6 are not exercised by any claim and are not
modelled. -/
def specSuppressionDetector : SuppressionDetector :=
  fun startPosition documentContents ruleID _ =>
    let lineStartIdx : Int :=
      jsLastIndexOf (jsSubstrTo documentContents startPosition) (jstr "\n") + 1
    let restFromLineStart := jsSubstrFrom documentContents lineStartIdx
    let lineEndRel := jsIndexOf restFromLineStart (jstr "\n")
    let line :=
      if lineEndRel = -1 then restFromLineStart
      else jsSubstrTo restFromLineStart lineEndRel
    let dIdx := jsIndexOf (toLowerL line) (jstr "devskim: ignore")
    if dIdx = -1 then { showFinding := false, ruleColumn := -1 }
    else
      let afterDirective := jsSubstrFrom line (dIdx + 15)
      let rIdxInAfter :=
        jsIndexOf (toLowerL afterDirective) (toLowerL (jstr ruleID))
      if rIdxInAfter ≥ 0 then
        { showFinding := true
          ruleColumn := dIdx + 15 + rIdxInAfter - (startPosition - lineStartIdx) }
      else if (afterDirective.filter (fun c => !(c = ' '))).isEmpty then
        { showFinding := true, ruleColumn := -1 }
      else { showFinding := false, ruleColumn := -1 }

/-- `Except` equality is decidable (needed to evaluate closed runs). -/
instance {ε α : Type} [DecidableEq ε] [DecidableEq α] :
    DecidableEq (Except ε α) :=
  fun a b =>
    match a, b with
    | .ok x, .ok y =>
      if h : x = y then .isTrue (by rw [h]) else .isFalse (by simp [h])
    | .error x, .error y =>
      if h : x = y then .isTrue (by rw [h]) else .isFalse (by simp [h])
    | .ok _, .error _ => .isFalse (by simp)
    | .error _, .ok _ => .isFalse (by simp)

/- ### Concrete inputs used by the claim theorems below -/

/-- All severities on, nothing ignored. -/
def defaultSettings : IDevSkimSettings :=
  { ignoreFilesList := [], ignoreRulesList := [],
    enableBestPracticeRules := false, enableManualReviewRules := false }

/-- C1: a problem of rule `A` at line 0, column 0. -/
def c1qA : DevSkimProblem :=
  { message := "", name := "", ruleId := "A", severity := .Critical,
    recommendation := "", ruleInfo := "", range := mkRange 0 0 0 6,
    fixes := [], overrides := [], suppressedFindingRange := none }

/-- C1: a problem of rule `B` at the same start position. -/
def c1qB : DevSkimProblem := { c1qA with ruleId := "B" }

/-- C1: a problem of rule `P`, which declares it overrides `A` and `B`,
again at the same start position. -/
def c1p : DevSkimProblem :=
  { c1qA with ruleId := "P", overrides := ["A", "B"] }

/-- C2: a rule with two fix templates, authored as `first` then `second`. -/
def c2rule : Rule :=
  { id := "C2", name := "", description := "", recommendation := "",
    ruleInfo := "", severity := "critical", appliesTo := none,
    overrides := none,
    patterns := [{ type := "substring", pattern := "a", modifiers := none,
                   scopes := ["all"] }],
    conditions := none,
    fixIts := some
      [{ name := "first",
         pattern := { type := "substring", pattern := "a", modifiers := none,
                      scopes := ["all"] },
         replacement := "b" },
       { name := "second",
         pattern := { type := "substring", pattern := "a", modifiers := none,
                      scopes := ["all"] },
         replacement := "c" }] }

/-- C3: a condition with `search_in = "finding-only"` whose pattern `x`
occurs only before the finding's character range. -/
def c3cond : Condition :=
  { pattern := { type := "substring", pattern := "x", modifiers := none,
                 scopes := ["all"] },
    search_in := some (.str "finding-only"), negateFinding := none }

/-- C4: a condition with `search_in = "finding-region(1,1)"` whose pattern
`close` occurs on the line after the finding. -/
def c4cond : Condition :=
  { pattern := { type := "substring", pattern := "close", modifiers := none,
                 scopes := ["all"] },
    search_in := some (.str "finding-region(1,1)"), negateFinding := none }

/-- C5: a rule whose only pattern is the invalid regex `(`. -/
def c5rule : Rule :=
  { id := "C5", name := "", description := "", recommendation := "",
    ruleInfo := "", severity := "critical", appliesTo := none,
    overrides := none,
    patterns := [{ type := "regex", pattern := "(", modifiers := none,
                   scopes := ["all"] }],
    conditions := none, fixIts := none }

/-- C5 witness: a rule with two well-formed fix templates. -/
def c5wrule : Rule :=
  { c2rule with id := "C5W" }

/-- C7: a rule whose pattern matches the empty string, so every match is
zero-width. -/
def c7rule : Rule :=
  { id := "C7", name := "", description := "", recommendation := "",
    ruleInfo := "", severity := "critical", appliesTo := none,
    overrides := none,
    patterns := [{ type := "substring", pattern := "", modifiers := none,
                   scopes := ["all"] }],
    conditions := none, fixIts := none }

/-- C7: the zero-width pattern itself. -/
def c7pat : PatternT :=
  { type := "substring", pattern := "", modifiers := none, scopes := ["all"] }

/-- C8: a code-scoped rule for `strcpy`. -/
def c8rule : Rule :=
  { id := "DS001", name := "", description := "", recommendation := "",
    ruleInfo := "", severity := "critical", appliesTo := none,
    overrides := none,
    patterns := [{ type := "substring", pattern := "strcpy",
                   modifiers := none, scopes := ["code"] }],
    conditions := none, fixIts := none }

/-- C8: the `strcpy` use sits inside a line comment that also carries a
suppression directive for the rule. -/
def c8doc : JSStr := jstr "// strcpy DevSkim: ignore DS001\n"

/-- C8 witness: the code-scoped pattern of `c8rule`. -/
def c8wpat : PatternT :=
  { type := "substring", pattern := "strcpy", modifiers := none,
    scopes := ["code"] }

/-- C8 witness: plain code, no comment, no directive. -/
def c8wdoc : JSStr := jstr "strcpy(a);"

/- ### Theorems -/

/-- **C1.** The claim fails on the code: `processOverrides` splices inside
the very `for (x)` loop that indexes the array, so after removing
`problems[x]` it skips the element shifted into position `x`, and the
closing `problem.overrides = []` prevents the recursive pass from ever
retrying those overrides.  On `[qA, qB, p]` — `qA` of rule `A`, `qB` of
rule `B`, both at line 0 column 0, and `p` overriding `{A, B}` at the same
start — the run removes `qA` but leaves `qB`, even though `qB.ruleId = "B"`
is in the overriding set and `qB` starts exactly at `p`'s anchor. -/
theorem C1_processOverrides_skips_second_peer :
    processOverrides [c1qA, c1qB, c1p] =
      [c1qB, { c1p with overrides := [] }] ∧
    c1qB.ruleId = "B" ∧ "B" ∈ c1p.overrides ∧
    c1qB.range.start = (anchorRange c1p).start := by
  decide

/-- **C2.** Evaluating the loop body at a match of `c2rule` (two fix
templates, authored `first` then `second`): the emitted problem's `fixes`
list the `second` template's edit before the `first` one's — `MakeFixes`
iterates `fixIts` in reverse author order and `problem.fixes` concatenates
that list as is, so rule-author order is reversed, contradicting the claim
(and the source's own comment about wanting the first fix first). -/
theorem C2_fixes_surface_in_reverse_author_order :
    processMatch litEngine noSuppression noActions c2rule
      { type := "substring", pattern := "a", modifiers := none,
        scopes := ["all"] }
      (jstr "a;") "c" { index := 0, len := 1 } 5 =
    jsPure [{ message := "", name := "", ruleId := "C2",
              severity := .Critical, recommendation := "", ruleInfo := "",
              range := mkRange 0 0 0 1,
              fixes :=
                [{ fixName := some "DevSkim: second", text := jstr "c",
                   range := mkRange 0 0 0 1 },
                 { fixName := some "DevSkim: first", text := jstr "b",
                   range := mkRange 0 0 0 1 }],
              overrides := [], suppressedFindingRange := none }] := by
  decide

/-- **C3.** The claim fails on the code: `"finding-only"` is a truthy
string, so `condition.search_in == undefined || condition.search_in` takes
the line-range branch and the `== "finding-only"` test is dead.  With the
finding at characters 2–5 of line 0 and the condition pattern `x` present
only at character 0, the code scans offsets 0–6 (the whole line), finds the
`x`, and satisfies the condition; under the claim's exact character range
2–5 it would not. -/
theorem C3_findingOnly_is_dead_code :
    MatchesConditions litEngine [c3cond] (jstr "x abc\n") (mkRange 0 2 0 5)
      "c" 10 = jsPure true ∧
    conditionRegion (jstr "x abc\n") (mkRange 0 2 0 5) c3cond = (0, 6) ∧
    (GetDocumentPosition (jstr "x abc\n") 0 + 2,
     GetDocumentPosition (jstr "x abc\n") 0 + 5) = ((2 : Int), (5 : Int)) := by
  decide

/-- **C4.** The claim fails on the code: `"finding-region(1,1)"` is a
truthy string, so the line-range branch swallows it and the region parse is
dead (and even if reached, `findingRange.start.line + regionMatch[1]` would
concatenate strings).  Finding on line 0 of `"open\nxclose\n"`, condition
pattern `close` at offset 6 on line 1: the code scans offsets 0–5 only, the
first match is past `endPos`, and the condition fails; under the claim's
region — start of line 1 (offset 5) to start of line 2 (offset 12) — the
match at offset 6 would satisfy it. -/
theorem C4_findingRegion_is_dead_code :
    MatchesConditions litEngine [c4cond] (jstr "open\nxclose\n")
      (mkRange 0 0 0 4) "c" 10 = jsPure false ∧
    conditionRegion (jstr "open\nxclose\n") (mkRange 0 0 0 4) c4cond =
      (0, 5) ∧
    (GetDocumentPosition (jstr "open\nxclose\n") (0 + 1),
     GetDocumentPosition (jstr "open\nxclose\n") (0 + 1 + 1)) =
      ((5 : Int), (12 : Int)) ∧
    jsIndexOf (jstr "open\nxclose\n") (jstr "close") = 6 := by
  decide

/-- **C5 counterexample.** `analyzeText` propagates a regex-construction
failure: the pattern regex is built outside any `try`, so with a rule whose
pattern is the invalid regex `(` the exception escapes to the caller
instead of the pattern being skipped. -/
theorem C5_counterexample_construction_failure_escapes :
    analyzeText parenFailEngine noSuppression noActions (fun _ _ => false)
      defaultSettings [c5rule] 10 (jstr "abc") "c" "file.c" =
      some (Except.error "SyntaxError") := by
  decide

/-- **C6 counterexample.** On `"a\nb\ncd"` with a match covering the whole
document (offset 0, length 6, two newlines at offsets 1 and 3), the code
computes `columnEnd = 4` — match length minus the offset of the **first**
newline minus one — whereas the claim's formula with the **last** newline
gives `6 − 3 − 1 = 2`. -/
theorem C6_counterexample_last_newline :
    countNewlines (jsSubstr2 (jstr "a\nb\ncd") 0 6) = 2 ∧
    jsLastIndexOf (jsSubstr2 (jstr "a\nb\ncd") 0 6) (jstr "\n") = 3 ∧
    (matchGeometry (jstr "a\nb\ncd") 0 6).range =
      mkRange 0 0 2 4 ∧
    ((4 : Int) ≠ 6 - 3 - 1) := by
  decide

/-- **C8 counterexample.** A problem from the `{code}`-scoped pattern of
`c8rule` is emitted at match offset 3 of `c8doc`, which
`IsFindingInComment` classifies as inside a comment: the suppression-marker
branch (devskimWorker.ts:365) runs without any scope test.  (The
suppression detector is modelled from spec §4.C, suppressions.ts being
outside src/.) -/
theorem C8_counterexample_marker_in_comment :
    runAnalysis litEngine specSuppressionDetector noActions defaultSettings
      [c8rule] 20 c8doc "c" "u" =
      jsPure [{ message := "", name := "", ruleId := "DS001",
                severity := .WarningInfo, recommendation := "",
                ruleInfo := "", range := mkRange 0 26 0 31, fixes := [],
                overrides := [],
                suppressedFindingRange := some (mkRange 0 3 0 9) }] ∧
    c8rule.patterns = [{ type := "substring", pattern := "strcpy",
                         modifiers := none, scopes := ["code"] }] ∧
    IsFindingInComment "c" (jsSubstrTo c8doc 3) (-1) = true := by
  decide

/-- Helper for C7: with the zero-width pattern, every iteration of the scan
loop re-matches at offset 0 and moves the cursor to `0 + 0 = 0`, so no
amount of fuel completes the loop. -/
theorem c7_scan_never_completes (cf : Nat) :
    ∀ (fuel : Nat) (acc : List DevSkimProblem),
      scanLoop litEngine noSuppression noActions c7rule c7pat ""
        (jstr "abc") "c" cf fuel 0 acc = none := by
  intro fuel
  induction fuel with
  | zero => intro acc; rfl
  | succ f ih =>
    intro acc
    have hstep :
        scanLoop litEngine noSuppression noActions c7rule c7pat ""
          (jstr "abc") "c" cf (f + 1) 0 acc =
        scanLoop litEngine noSuppression noActions c7rule c7pat ""
          (jstr "abc") "c" cf f 0
          (acc ++ [MakeProblem c7rule .Critical (mkRange 0 0 0 0)]) := rfl
    rw [hstep]
    exact ih _

/-- **C7.** The claim fails on the code: the scan loop advances only to
`match.index + match[0].length`, with no zero-width guard.  For a rule
whose pattern matches the empty string, the cursor stays at the match index
forever: whatever fuel the model grants, `runAnalysis` never completes
(`none` is the model's rendering of the JS `while` loop never exiting). -/
theorem C7_zero_width_match_never_terminates :
    ∀ fuel : Nat,
      runAnalysis litEngine noSuppression noActions defaultSettings [c7rule]
        fuel (jstr "abc") "c" "u" = none := by
  intro fuel
  have h := c7_scan_never_completes fuel fuel []
  have hrw : runAnalysis litEngine noSuppression noActions defaultSettings
      [c7rule] fuel (jstr "abc") "c" "u" =
      jsBind
        (jsBind
          (scanLoop litEngine noSuppression noActions c7rule c7pat ""
            (jstr "abc") "c" fuel fuel 0 [])
          (fun problems2 =>
            patternsLoop litEngine noSuppression noActions c7rule
              (jstr "abc") "c" fuel [] problems2))
        (fun problems2 =>
          rulesLoop litEngine noSuppression noActions defaultSettings
            (jstr "abc") "c" "u" fuel [] problems2) := rfl
  rw [hrw, h]
  rfl

/-- Helper for C5: the fix loop never fails because of a substitution —
every `rreplace` outcome, success or thrown error, continues the loop; only
regex construction (outside the source's `try`) can escape. -/
theorem goFixes_substitution_never_escapes {ρ : Type} (e : RegexEngine ρ)
    (src : JSStr) (range : RangeT) :
    ∀ (l : List FixIt) (acc : List DevSkimAutoFixEdit),
      (∀ f ∈ l, (MakeRegex e f.pattern.type f.pattern.pattern
        f.pattern.modifiers false).isOk = true) →
      (goFixes e src range l acc).isOk = true := by
  intro l
  induction l with
  | nil => intro acc _; rfl
  | cons f rest ih =>
    intro acc h
    unfold goFixes
    split
    · rename_i msg heq
      have hf := h f (by simp)
      rw [heq] at hf
      simp [Except.isOk, Except.toBool] at hf
    · rename_i rp heq
      split
      · exact ih _ (fun g hg => h g (List.mem_cons_of_mem _ hg))
      · exact ih _ (fun g hg => h g (List.mem_cons_of_mem _ hg))

/-- **C5 (amended).** What the code guarantees: a **substitution** failure
is swallowed at fix granularity — whenever every fix template's regex
constructs, `MakeFixes` returns normally no matter how `replace` behaves.
Construction failures (pattern or fix) do escape:
`C5_counterexample_construction_failure_escapes`. -/
theorem C5_substitution_failures_swallowed {ρ : Type} (e : RegexEngine ρ)
    (rule : Rule) (src : JSStr) (range : RangeT)
    (h : ∀ f ∈ rule.fixIts.getD [], (MakeRegex e f.pattern.type
      f.pattern.pattern f.pattern.modifiers false).isOk = true) :
    (MakeFixes e rule src range).isOk = true := by
  unfold MakeFixes
  cases hf : rule.fixIts with
  | none => rfl
  | some l =>
    rw [hf] at h
    simp only [Option.getD_some] at h
    show (if l.length > 0 then goFixes e src range l.reverse []
      else Except.ok []).isOk = true
    by_cases hl : l.length > 0
    · rw [if_pos hl]
      exact goFixes_substitution_never_escapes e src range l.reverse []
        (fun f hf2 => h f (List.mem_reverse.mp hf2))
    · rw [if_neg hl]; rfl

/-- **C5 witness.** An engine whose every substitution throws still yields
a normal (fix-skipping) `MakeFixes` result on a rule with two templates. -/
theorem C5_witness_substitution_failure :
    (MakeFixes failReplEngine c5wrule (jstr "a") (mkRange 0 0 0 1)).isOk =
      true :=
  C5_substitution_failures_swallowed failReplEngine c5wrule (jstr "a")
    (mkRange 0 0 0 1) (by decide)

/-- Helper: `MakeProblem` gives the problem exactly the severity it is
passed. -/
theorem MakeProblem_severity (rule : Rule) (lvl : DevskimRuleSeverity)
    (r : RangeT) (sfr : Option RangeT) :
    (MakeProblem rule lvl r sfr).severity = lvl := by
  unfold MakeProblem
  cases sfr <;> cases h : rule.overrides <;> simp [h] <;> split <;> rfl

/-- Helper: everything the suppression-marker branch emits has severity
WarningInfo. -/
theorem marker_severity (rule : Rule) (g : MatchGeometry)
    (sf : DevSkimSuppressionFinding) (p : DevSkimProblem)
    (hp : p ∈ suppressionMarker rule g sf) :
    p.severity = .WarningInfo := by
  unfold suppressionMarker at hp
  split at hp
  · rcases hp with _ | ⟨_, h⟩
    · exact MakeProblem_severity _ _ _ _
    · cases h
  · cases hp

/-- **C8 (amended).** Scope soundness holds for **live** problems: any
problem the match-loop body emits whose severity is not WarningInfo passed
`MatchIsInScope` at its match offset — so a `{code}`-scoped pattern never
yields a live problem in a comment, nor a `{comment}`-scoped one in code.
WarningInfo suppression markers are emitted without the scope test and are
exempt (`C8_counterexample_marker_in_comment`). -/
theorem C8_live_problems_pass_scope_test {ρ : Type} (e : RegexEngine ρ)
    (detector : SuppressionDetector) (createActions : CreateActions)
    (rule : Rule) (pat : PatternT) (doc : JSStr) (langID : String)
    (m : RMatch) (fuel : Nat) (ps : List DevSkimProblem)
    (p : DevSkimProblem)
    (hrun : processMatch e detector createActions rule pat doc langID m
      fuel = jsPure ps)
    (hmem : p ∈ ps) (hlive : p.severity ≠ .WarningInfo) :
    MatchIsInScope langID (jsSubstrTo doc m.index)
      (matchGeometry doc m.index m.len).newlineIndex pat.scopes = true := by
  unfold processMatch at hrun
  dsimp only [] at hrun
  split at hrun
  · rename_i hcond
    exact (Bool.and_eq_true _ _ |>.mp hcond).2
  · rename_i hcond
    have hps : ps = suppressionMarker rule
        (matchGeometry doc m.index m.len)
        (detector m.index doc rule.id (MapRuleSeverity rule.severity)) := by
      have hinj := Option.some.inj hrun
      exact (Except.ok.inj hinj).symm
    rw [hps] at hmem
    exact absurd (marker_severity _ _ _ _ hmem) hlive

/-- **C8 witness.** A live problem emitted from the `{code}`-scoped pattern
on plain (uncommented) code indeed passed the scope test. -/
theorem C8_witness_live_problem :
    MatchIsInScope "c" (jsSubstrTo c8wdoc 0)
      (matchGeometry c8wdoc 0 6).newlineIndex c8wpat.scopes = true :=
  C8_live_problems_pass_scope_test litEngine noSuppression noActions c8rule
    c8wpat c8wdoc "c" ⟨0, 6⟩ 5
    [MakeProblem c8rule .Critical (mkRange 0 0 0 6)]
    (MakeProblem c8rule .Critical (mkRange 0 0 0 6))
    (by decide) (by decide) (by decide)

/-- Helper: a string containing a `"\n"` has at least one counted newline. -/
theorem cn_pos : ∀ (l : List Char), '\n' ∈ l → countNewlines l ≠ 0 := by
  intro l h
  induction l using countNewlines.induct with
  | case1 => simp at h
  | case2 rest => simp [countNewlines]
  | case3 rest ih => simp [countNewlines]
  | case4 rest ih => simp [countNewlines]
  | case5 c rest h1 h2 h3 ih =>
    have hmem : '\n' ∈ rest := by
      rcases List.mem_cons.mp h with h4 | h4
      · exact absurd h4.symm (fun hh => h3 hh)
      · exact h4
    unfold countNewlines
    split
    · rename_i heq; exact List.noConfusion heq
    · simp
    · simp
    · simp
    · rename_i heq
      injection heq with hc hrest
      subst hrest
      exact ih hmem

/-- Helper: when the character occurs within the taken prefix, its first
occurrence in the prefix and in the whole list coincide. -/
theorem firstIdx_single_take (c : Char) :
    ∀ (l : List Char) (n : Nat), c ∈ l.take n →
      firstIdx [c] (l.take n) = firstIdx [c] l := by
  intro l
  induction l with
  | nil => intro n h; simp at h
  | cons a t ih =>
    intro n h
    cases n with
    | zero => simp at h
    | succ n =>
      rw [List.take_succ_cons] at h ⊢
      have hpc : ∀ xs : List Char, [c].isPrefixOf (a :: xs) = (c == a) := by
        intro xs; simp [List.isPrefixOf]
      unfold firstIdx
      rw [hpc, hpc]
      by_cases hca : c = a
      · simp [hca]
      · have hfa : (c == a) = false := by simp [hca]
        rw [hfa]
        simp only [Bool.false_eq_true, if_false]
        have hmem : c ∈ t.take n := by
          rcases List.mem_cons.mp h with h4 | h4
          · exact absurd h4 hca
          · exact h4
        rw [ih n hmem]

/-- **C6 (amended).** For a match containing a newline, `lineEnd` is indeed
`lineStart` plus the newlines in the matched text, but `columnEnd` is the
match length minus the offset of the **first** `"\n"` within the matched
text minus one — the source takes `indexOf("\n")` on the document suffix,
not the last newline the claim names
(`C6_counterexample_last_newline`). -/
theorem C6_multiline_match_range (doc : JSStr) (mIndex mLen : Int)
    (h1 : '\n' ∈ jsSubstr2 doc mIndex mLen) :
    (matchGeometry doc mIndex mLen).range.stop.line =
      (matchGeometry doc mIndex mLen).range.start.line +
        (countNewlines (jsSubstr2 doc mIndex mLen) : Int) ∧
    (matchGeometry doc mIndex mLen).range.stop.character =
      mLen - jsIndexOf (jsSubstr2 doc mIndex mLen) (jstr "\n") - 1 := by
  have htake : jsSubstrTo (jsSubstr2 doc mIndex mLen)
      (((jsSubstr2 doc mIndex mLen).length : Nat) : Int) =
      jsSubstr2 doc mIndex mLen := by
    unfold jsSubstrTo
    rw [Int.toNat_natCast, List.take_length]
  have hcount : GetLineNumber (jsSubstr2 doc mIndex mLen)
      (((jsSubstr2 doc mIndex mLen).length : Nat) : Int) =
      (countNewlines (jsSubstr2 doc mIndex mLen) : Int) := by
    unfold GetLineNumber
    rw [htake]
  have hcn := cn_pos _ h1
  have hidx : firstIdx (jstr "\n") (jsSubstr2 doc mIndex mLen) =
      firstIdx (jstr "\n") (jsSubstrFrom doc mIndex) := by
    show firstIdx ['\n'] ((jsSubstrFrom doc mIndex).take mLen.toNat) =
      firstIdx ['\n'] (jsSubstrFrom doc mIndex)
    exact firstIdx_single_take '\n' (jsSubstrFrom doc mIndex) mLen.toNat h1
  unfold matchGeometry mkRange
  dsimp only
  rw [hcount]
  constructor
  · omega
  · rw [if_neg (by omega)]
    unfold jsIndexOf
    rw [hidx]

/-- **C6 witness.** A concrete single-newline match: `"a\nb"` covered
entirely (offset 0, length 3) ends at line 1, character 1 = 3 − 1 − 1. -/
theorem C6_witness_multiline :
    (matchGeometry (jstr "a\nb") 0 3).range.stop.line =
      (matchGeometry (jstr "a\nb") 0 3).range.start.line +
        (countNewlines (jsSubstr2 (jstr "a\nb") 0 3) : Int) ∧
    (matchGeometry (jstr "a\nb") 0 3).range.stop.character =
      3 - jsIndexOf (jsSubstr2 (jstr "a\nb") 0 3) (jstr "\n") - 1 :=
  C6_multiline_match_range (jstr "a\nb") 0 3 (by decide)

/-- Helper: folding append from an accumulator equals the accumulator
followed by the fold from the empty string. -/
theorem foldl_append_acc : ∀ (l : List String) (acc : String),
    l.foldl (· ++ ·) acc = acc ++ l.foldl (· ++ ·) "" := by
  intro l
  induction l with
  | nil => intro acc; exact (String.append_empty acc).symm
  | cons x xs ih =>
    intro acc
    show xs.foldl (· ++ ·) (acc ++ x) = acc ++ xs.foldl (· ++ ·) ("" ++ x)
    rw [ih (acc ++ x), ih ("" ++ x), String.empty_append,
      String.append_assoc]

/-- Helper: the source's modifier fold equals the spec's per-modifier
translation joined together. -/
theorem flags_fold (fx : Bool) : ∀ (l : List String) (acc : String),
    l.foldl (fun acc2 m => if m = "d" then (if fx then acc2 ++ "s" else acc2)
      else acc2 ++ m) acc =
    acc ++ String.join (l.map (fun m => if m = "d" then
      (if fx then "s" else "") else m)) := by
  intro l
  induction l with
  | nil => intro acc; exact (String.append_empty acc).symm
  | cons m rest ih =>
    intro acc
    show rest.foldl _ (if m = "d" then (if fx then acc ++ "s" else acc)
      else acc ++ m) = acc ++ String.join ((if m = "d" then
      (if fx then "s" else "") else m) :: rest.map _)
    rw [ih]
    have hjoin : ∀ (x : String) (l2 : List String),
        String.join (x :: l2) = x ++ String.join l2 := by
      intro x l2
      show l2.foldl (· ++ ·) ("" ++ x) = x ++ l2.foldl (· ++ ·) ""
      rw [String.empty_append, foldl_append_acc l2 x]
    rw [hjoin, ← String.append_assoc]
    congr 1
    by_cases hd : m = "d"
    · by_cases hfx : fx = true
      · simp [hd, hfx]
      · simp [hd, hfx, String.append_empty]
    · simp [hd]

/-- **C9.** `MakeRegex` realizes exactly the spec's §4.B mapping: for every
engine, kind, pattern, modifier list and target-dialect flag, the compiled
call is `compile (specSource escape kind pattern) (specFlags modifiers
forXregExp)` — modifiers copied verbatim except `d` (emitted as `s` when
`forXregExp`, dropped otherwise), and the source string built by kind with
case-insensitive comparison, unknown kinds treated as plain regex. -/
theorem C9_MakeRegex_follows_spec_mapping {ρ : Type} (e : RegexEngine ρ)
    (regexType pattern : String) (modifiers : Option (List String))
    (forXregExp : Bool) :
    MakeRegex e regexType pattern modifiers forXregExp =
      e.compile (specSource e.escape regexType pattern)
        (specFlags modifiers forXregExp) := by
  have hflags : (match modifiers with
      | none => ""
      | some mods => mods.foldl (fun acc m => if m = "d" then
          (if forXregExp then acc ++ "s" else acc) else acc ++ m) "") =
      specFlags modifiers forXregExp := by
    cases modifiers with
    | none => rfl
    | some mods =>
      show mods.foldl _ "" = specFlags (some mods) forXregExp
      rw [flags_fold forXregExp mods "", String.empty_append]
      rfl
  unfold MakeRegex
  rw [hflags]
  split
  · rename_i heq; simp [specSource, heq]
  · rename_i heq; simp [specSource, heq]
  · rename_i heq; simp [specSource, heq]
  · rename_i h1 h2 h3
    unfold specSource
    rw [if_neg h1, if_neg h2, if_neg h3]

/-- Helper: appending a digit multiplies the value by ten and adds it. -/
theorem decVal_append_digit (l : List Char) (c : Char) :
    decVal (l ++ [c]) = 10 * decVal l + (c.toNat - 48) := by
  simp [decVal, List.foldl_append]

/-- Helper: `decVal` recovers the number `decCharsF` printed. -/
theorem decVal_decCharsF : ∀ (fuel n : Nat), n < fuel →
    decVal (decCharsF fuel n) = n := by
  intro fuel
  induction fuel with
  | zero => intro n hn; omega
  | succ f ih =>
    intro n hn
    unfold decCharsF
    by_cases h10 : n < 10
    · rw [if_pos h10]
      have hbase : ∀ m, m < 10 → decVal [decDigit m] = m := by decide
      exact hbase n h10
    · rw [if_neg h10]
      rw [decVal_append_digit]
      have hlt : n / 10 < f := by
        have := Nat.div_lt_self (by omega : 0 < n) (by omega : 1 < 10)
        omega
      rw [ih (n / 10) hlt]
      have hd : ∀ m, m < 10 → (decDigit m).toNat - 48 = m := by decide
      rw [hd (n % 10) (Nat.mod_lt _ (by omega))]
      omega

/-- Helper: decimal printing is injective. -/
theorem decStr_inj {a b : Nat} (h : decStr a = decStr b) : a = b := by
  have hdata : decCharsF (a + 1) a = decCharsF (b + 1) b :=
    congrArg String.data h
  have ha := decVal_decCharsF (a + 1) a (by omega)
  have hb := decVal_decCharsF (b + 1) b (by omega)
  rw [hdata] at ha
  omega

/-- Helper: two different ordinals yield different concatenated keys. -/
theorem key_decStr_inj (key : String) {a b : Nat}
    (h : key ++ decStr a = key ++ decStr b) : a = b := by
  apply decStr_inj
  have hd : (key ++ decStr a).data = (key ++ decStr b).data :=
    congrArg String.data h
  rw [String.data_append, String.data_append] at hd
  exact String.ext (List.append_cancel_left hd)

/-- Helper: a successful lookup means the key is among the stored keys. -/
theorem lookupA_isSome_mem {α : Type} (m : List (String × α)) (k : String)
    (h : (lookupA m k).isSome = true) : k ∈ m.map Prod.fst := by
  unfold lookupA at h
  cases hf : m.find? (fun p => p.1 == k) with
  | none => rw [hf] at h; simp at h
  | some pr =>
    have hmem := List.mem_of_find?_eq_some hf
    have hp := List.find?_some hf
    have hk : pr.1 = k := by simpa using hp
    exact hk ▸ List.mem_map_of_mem Prod.fst hmem

/-- Helper (pigeonhole): among the first `edits.length + 1` ordinals one
key is unused, since the ordinal keys are pairwise distinct. -/
theorem exists_free_ordinal (edits : EditsMap) (key : String) :
    ∃ x, x ≤ edits.length ∧ lookupA edits (key ++ decStr x) = none := by
  by_contra hc
  push_neg at hc
  have hmem : ∀ x ∈ List.range (edits.length + 1),
      (key ++ decStr x) ∈ edits.map Prod.fst := by
    intro x hx
    have hx2 : x ≤ edits.length := by
      have := List.mem_range.mp hx
      omega
    apply lookupA_isSome_mem
    cases h2 : lookupA edits (key ++ decStr x) with
    | none => exact absurd h2 (hc x hx2)
    | some v => rfl
  have hinj : Function.Injective (fun x : Nat => key ++ decStr x) := by
    intro a b hab
    exact key_decStr_inj key hab
  have hnodup : ((List.range (edits.length + 1)).map
      (fun x => key ++ decStr x)).Nodup :=
    List.Nodup.map hinj (List.nodup_range _)
  have hsub : ((List.range (edits.length + 1)).map
      (fun x => key ++ decStr x)).toFinset ⊆
      (edits.map Prod.fst).toFinset := by
    intro s hs
    rw [List.mem_toFinset] at hs ⊢
    rcases List.mem_map.mp hs with ⟨x, hx, rfl⟩
    exact hmem x hx
  have hcard1 : ((List.range (edits.length + 1)).map
      (fun x => key ++ decStr x)).toFinset.card = edits.length + 1 := by
    rw [List.toFinset_card_of_nodup hnodup]
    simp
  have hcard2 := Finset.card_le_card hsub
  have hcard3 := (edits.map Prod.fst).toFinset_card_le
  have hlen : (edits.map Prod.fst).length = edits.length :=
    List.length_map _ _
  omega

/-- Helper: given enough fuel to reach a free ordinal, the `while` loop
stops exactly at the smallest free one. -/
theorem ordinalLoop_spec (edits : EditsMap) (key : String) :
    ∀ (fuel x0 : Nat),
      (∃ d, d < fuel ∧ lookupA edits (key ++ decStr (x0 + d)) = none) →
      lookupA edits (key ++ decStr (ordinalLoop edits key fuel x0)) = none ∧
      x0 ≤ ordinalLoop edits key fuel x0 ∧
      ∀ y, x0 ≤ y → y < ordinalLoop edits key fuel x0 →
        lookupA edits (key ++ decStr y) ≠ none := by
  intro fuel
  induction fuel with
  | zero =>
    intro x0 hex
    rcases hex with ⟨d, hd, _⟩
    omega
  | succ f ih =>
    intro x0 hex
    cases hl : lookupA edits (key ++ decStr x0) with
    | none =>
      have hres : ordinalLoop edits key (f + 1) x0 = x0 := by
        have hu : ordinalLoop edits key (f + 1) x0 =
            (match lookupA edits (key ++ decStr x0) with
             | some _ => ordinalLoop edits key f (x0 + 1)
             | none => x0) := rfl
        rw [hu, hl]
      rw [hres]
      refine ⟨hl, Nat.le_refl _, ?_⟩
      intro y h1 h2
      omega
    | some v =>
      have hres : ordinalLoop edits key (f + 1) x0 =
          ordinalLoop edits key f (x0 + 1) := by
        have hu : ordinalLoop edits key (f + 1) x0 =
            (match lookupA edits (key ++ decStr x0) with
             | some _ => ordinalLoop edits key f (x0 + 1)
             | none => x0) := rfl
        rw [hu, hl]
      rw [hres]
      rcases hex with ⟨d, hd, hfree⟩
      have hd0 : d ≠ 0 := by
        rintro rfl
        rw [Nat.add_zero] at hfree
        rw [hfree] at hl
        cases hl
      have hex2 : ∃ d2, d2 < f ∧
          lookupA edits (key ++ decStr (x0 + 1 + d2)) = none := by
        refine ⟨d - 1, by omega, ?_⟩
        rw [show x0 + 1 + (d - 1) = x0 + d by omega]
        exact hfree
      obtain ⟨h1, h2, h3⟩ := ih (x0 + 1) hex2
      refine ⟨h1, by omega, ?_⟩
      intro y hy1 hy2
      rcases Nat.eq_or_lt_of_le hy1 with rfl | hy3
      · rw [hl]
        intro hcon
        cases hcon
      · exact h3 y (by omega) hy2

/-- Helper: after `setA`, the written key reads back the written value. -/
theorem lookupA_setA_self {α : Type} (m : List (String × α)) (k : String)
    (v : α) : lookupA (setA m k v) k = some v := by
  induction m with
  | nil => simp [setA, lookupA, List.find?]
  | cons p rest ih =>
    rcases p with ⟨k2, v2⟩
    unfold setA
    by_cases hp : (k2 == k) = true
    · rw [if_pos hp]
      simp [lookupA, List.find?]
    · rw [if_neg (by simp [hp])]
      unfold lookupA
      rw [List.find?]
      have hne : ((k2, v2).1 == k) = false := by simpa using hp
      rw [hne]
      exact ih

/-- Helper: `setA` leaves every other key's binding unchanged. -/
theorem lookupA_setA_ne {α : Type} (m : List (String × α)) (k k3 : String)
    (v : α) (h : k3 ≠ k) : lookupA (setA m k v) k3 = lookupA m k3 := by
  induction m with
  | nil =>
    have hne : (k == k3) = false := by
      simp
      intro hcon
      exact absurd hcon.symm h
    simp [setA, lookupA, List.find?, hne]
  | cons p rest ih =>
    rcases p with ⟨k2, v2⟩
    unfold setA
    by_cases hp : (k2 == k) = true
    · rw [if_pos hp]
      have hk2 : k2 = k := by simpa using hp
      unfold lookupA
      rw [List.find?, List.find?]
      have h1 : ((k, v).1 == k3) = false := by
        simp
        intro hcon
        exact absurd hcon.symm h
      have h2 : ((k2, v2).1 == k3) = false := by
        simp [hk2]
        intro hcon
        exact absurd hcon.symm h
      rw [h1, h2]
    · rw [if_neg (by simp [hp])]
      unfold lookupA
      rw [List.find?, List.find?]
      by_cases hq : ((k2, v2).1 == k3) = true
      · rw [hq]
      · rw [Bool.eq_false_iff.mpr hq]
        exact ih

/-- **C10.** `recordCodeAction`: a missing fix, or a missing or empty rule
id, leaves the cache untouched; every other call adds exactly one entry
under the given document URI — at the smallest ordinal `x` whose
concatenated key is unused — and changes nothing else: other URIs keep
their maps, other keys of this URI keep their values, and the new key was
absent before and now holds the new record. -/
theorem C10_recordCodeAction_frame (computeKey : RangeT → DiagCode → String)
    (cache : CodeActionsMap) (uri : String) (ver : Int) (range : RangeT)
    (code : DiagCode) (fix : Option DevSkimAutoFixEdit)
    (ruleID : Option String) :
    ((fix = none ∨ ruleID = none ∨ ruleID = some "") →
      recordCodeAction computeKey cache uri ver range code fix ruleID =
        cache) ∧
    (∀ f r, fix = some f → ruleID = some r → r ≠ "" →
      ∃ x entry,
        lookupA ((lookupA cache uri).getD [])
          (computeKey range code ++ decStr x) = none ∧
        (∀ y, y < x → lookupA ((lookupA cache uri).getD [])
          (computeKey range code ++ decStr y) ≠ none) ∧
        recordCodeAction computeKey cache uri ver range code fix ruleID =
          setA cache uri (setA ((lookupA cache uri).getD [])
            (computeKey range code ++ decStr x) entry) ∧
        (∀ u, u ≠ uri →
          lookupA (recordCodeAction computeKey cache uri ver range code fix
            ruleID) u = lookupA cache u) ∧
        lookupA (recordCodeAction computeKey cache uri ver range code fix
          ruleID) uri = some (setA ((lookupA cache uri).getD [])
            (computeKey range code ++ decStr x) entry) ∧
        (∀ k2, k2 ≠ computeKey range code ++ decStr x →
          lookupA (setA ((lookupA cache uri).getD [])
            (computeKey range code ++ decStr x) entry) k2 =
          lookupA ((lookupA cache uri).getD []) k2) ∧
        lookupA (setA ((lookupA cache uri).getD [])
          (computeKey range code ++ decStr x) entry)
          (computeKey range code ++ decStr x) = some entry) := by
  constructor
  · rintro (rfl | rfl | rfl)
    · cases ruleID <;> rfl
    · cases fix <;> rfl
    · cases fix <;> rfl
  · rintro f r rfl rfl hne
    obtain ⟨x0, hx0le, hx0free⟩ :=
      exists_free_ordinal ((lookupA cache uri).getD [])
        (computeKey range code)
    obtain ⟨hfree, -, hmin⟩ :=
      ordinalLoop_spec ((lookupA cache uri).getD []) (computeKey range code)
        (((lookupA cache uri).getD []).length + 1) 0
        ⟨x0, by omega, by simpa using hx0free⟩
    have hrec : recordCodeAction computeKey cache uri ver range code (some f)
        (some r) =
        setA cache uri (setA ((lookupA cache uri).getD [])
          (computeKey range code ++ decStr
            (ordinalLoop ((lookupA cache uri).getD [])
              (computeKey range code)
              (((lookupA cache uri).getD []).length + 1) 0))
          { label := match f.fixName with
              | some fn => if fn.length > 0 then fn
                else "Fix this " ++ r ++ " problem"
              | none => "Fix this " ++ r ++ " problem",
            documentVersion := ver, ruleId := r, edit := f }) := by
      have hu : recordCodeAction computeKey cache uri ver range code (some f)
          (some r) =
          (if r = "" then cache else
            setA cache uri (setA ((lookupA cache uri).getD [])
              (computeKey range code ++ decStr
                (ordinalLoop ((lookupA cache uri).getD [])
                  (computeKey range code)
                  (((lookupA cache uri).getD []).length + 1) 0))
              { label := match f.fixName with
                  | some fn => if fn.length > 0 then fn
                    else "Fix this " ++ r ++ " problem"
                  | none => "Fix this " ++ r ++ " problem",
                documentVersion := ver, ruleId := r, edit := f })) := rfl
      rw [hu, if_neg hne]
    refine ⟨ordinalLoop ((lookupA cache uri).getD [])
        (computeKey range code)
        (((lookupA cache uri).getD []).length + 1) 0,
      { label := match f.fixName with
          | some fn => if fn.length > 0 then fn
            else "Fix this " ++ r ++ " problem"
          | none => "Fix this " ++ r ++ " problem",
        documentVersion := ver, ruleId := r, edit := f },
      hfree, ?_, hrec, ?_, ?_, ?_, ?_⟩
    · intro y hy
      exact hmin y (Nat.zero_le _) hy
    · intro u hu
      rw [hrec]
      exact lookupA_setA_ne cache uri u _ hu
    · rw [hrec]
      exact lookupA_setA_self cache uri _
    · intro k2 hk2
      exact lookupA_setA_ne _ _ k2 _ hk2
    · exact lookupA_setA_self _ _ _
